import Mathlib

/-!
# go-sophia: the variable store and the transaction wrapper

A shallow embedding of `var_store.go` and `transaction.go`.

* C memory is a heap of blocks. Every allocation gets an address of its own, so an
  address names one buffer; the heap keeps the log of the addresses handed to `free`.
* The storage engine is a parameter: a record of functions over an engine state.
  Every call that crosses into the engine is appended to a call log.
* Go `int64` is `Int` with an explicit wrap (`toInt64`); Go strings are byte lists.
-/

namespace Sophia

/-! ## C memory -/

/-- A C pointer (Go `unsafe.Pointer`); `0` is the nil pointer. -/
abbrev Ptr := Nat

/-- One byte. -/
abbrev Byte := Fin 256

/-- A Go string: a sequence of bytes, which may contain zero bytes. -/
abbrev GoString := List Byte

/-- The C heap: the next fresh address, the live blocks, and the log of the
addresses passed to `free`, oldest first. -/
structure CHeap where
  next : Ptr
  blocks : List (Ptr × List Byte)
  released : List Ptr
deriving DecidableEq, Repr

/-- The bytes of a C string: everything before the first zero byte. -/
def cstr (bs : List Byte) : List Byte :=
  bs.takeWhile (fun b => b != 0)

/-- The block that starts at `p`, when `p` is the address of a live block. -/
def CHeap.block (h : CHeap) (p : Ptr) : Option (List Byte) :=
  h.blocks.lookup p

/-- The C string stored at `p`. -/
def CHeap.cstrAt (h : CHeap) (p : Ptr) : Option (List Byte) :=
  (h.block p).map cstr

/-- The first `n` bytes of a block, when the block has that many. -/
def readBytes (bs : List Byte) (n : Int) : Option (List Byte) :=
  if 0 ≤ n ∧ n.toNat ≤ bs.length then some (bs.take n.toNat) else none

/-- The `n` bytes stored at `p`. -/
def CHeap.read (h : CHeap) (p : Ptr) (n : Int) : Option (List Byte) :=
  (h.block p).bind (fun bs => readBytes bs n)

/-- Modelled from the spec: `cString` (the cgo wrapper is not among the sources).
It allocates a fresh C buffer holding a copy of the bytes of `s` followed by a
terminating zero byte, and returns its address. -/
def cString (s : GoString) (h : CHeap) : Ptr × CHeap :=
  (h.next, { next := h.next + 1, blocks := (h.next, s ++ [0]) :: h.blocks, released := h.released })

/-- Modelled from the spec: `free` (the cgo wrapper is not among the sources).
It releases the buffer at `p`: the block is dropped and the release is logged. -/
def free (p : Ptr) (h : CHeap) : CHeap :=
  { next := h.next, blocks := h.blocks.filter (fun b => b.1 != p), released := h.released ++ [p] }

/-! ## The engine boundary -/

/-- A call that crossed into the engine, with the arguments it was handed. -/
inductive Call where
  | setString (obj path val : Ptr) (size : Int)
  | setInt (obj path : Ptr) (val : Int)
  | getString (obj : Ptr) (path : GoString)
  | getObject (obj : Ptr) (path : GoString)
  | getInt (obj : Ptr) (path : GoString)
  | commit (obj : Ptr)
  | destroy (obj : Ptr)
deriving DecidableEq, Repr

/-- The storage engine, an external collaborator: what each operation answers and
how it changes the engine state `σ`. Setters see the C heap (they are handed
pointers into it); `load` is the engine-owned memory a returned pointer refers to. -/
structure Engine (σ : Type) where
  setString : σ → CHeap → Ptr → Ptr → Ptr → Int → Bool × σ
  setInt : σ → CHeap → Ptr → Ptr → Int → Bool × σ
  getString : σ → Ptr → GoString → Int → (Ptr × Int) × σ
  getObject : σ → Ptr → GoString → Ptr × σ
  getInt : σ → Ptr → GoString → Int × σ
  commit : σ → Ptr → Int × σ
  destroy : σ → Ptr → Bool × σ
  load : σ → Ptr → Option (List Byte)

/-- Everything outside the Go values: the C heap, the engine state, the call log. -/
structure World (σ : Type) where
  heap : CHeap
  eng : σ
  calls : List Call

variable {σ : Type}

/-- Modelled from the spec: `spSetString` (cgo wrapper, not among the sources):
`engine.set` of a byte field, given the field path as a C string, a pointer to
the value and its length. -/
def spSetString (E : Engine σ) (obj path val : Ptr) (size : Int) (w : World σ) : Bool × World σ :=
  let r := E.setString w.eng w.heap obj path val size
  (r.1, { heap := w.heap, eng := r.2, calls := w.calls ++ [Call.setString obj path val size] })

/-- Modelled from the spec: `spSetInt` (cgo wrapper, not among the sources). -/
def spSetInt (E : Engine σ) (obj path : Ptr) (val : Int) (w : World σ) : Bool × World σ :=
  let r := E.setInt w.eng w.heap obj path val
  (r.1, { heap := w.heap, eng := r.2, calls := w.calls ++ [Call.setInt obj path val] })

/-- Modelled from the spec: `spGetString` (cgo wrapper, not among the sources).
It returns the pointer to the field and the value left in `*size`. -/
def spGetString (E : Engine σ) (obj : Ptr) (path : GoString) (size : Int) (w : World σ) :
    (Ptr × Int) × World σ :=
  let r := E.getString w.eng obj path size
  (r.1, { heap := w.heap, eng := r.2, calls := w.calls ++ [Call.getString obj path] })

/-- Modelled from the spec: `spGetObject` (cgo wrapper, not among the sources). -/
def spGetObject (E : Engine σ) (obj : Ptr) (path : GoString) (w : World σ) : Ptr × World σ :=
  let r := E.getObject w.eng obj path
  (r.1, { heap := w.heap, eng := r.2, calls := w.calls ++ [Call.getObject obj path] })

/-- Modelled from the spec: `spGetInt` (cgo wrapper, not among the sources). -/
def spGetInt (E : Engine σ) (obj : Ptr) (path : GoString) (w : World σ) : Int × World σ :=
  let r := E.getInt w.eng obj path
  (r.1, { heap := w.heap, eng := r.2, calls := w.calls ++ [Call.getInt obj path] })

/-- Modelled from the spec: `spCommit` (cgo wrapper, not among the sources):
`engine.commit(txHandle) -> int`. -/
def spCommit (E : Engine σ) (obj : Ptr) (w : World σ) : Int × World σ :=
  let r := E.commit w.eng obj
  (r.1, { heap := w.heap, eng := r.2, calls := w.calls ++ [Call.commit obj] })

/-- Modelled from the spec: `spDestroy` (cgo wrapper, not among the sources):
`engine.destroy(handle) -> bool`. -/
def spDestroy (E : Engine σ) (obj : Ptr) (w : World σ) : Bool × World σ :=
  let r := E.destroy w.eng obj
  (r.1, { heap := w.heap, eng := r.2, calls := w.calls ++ [Call.destroy obj] })

/-! ## Go values as `reflect` sees them -/

/-- Conversion to `int64`: the two's-complement wrap of an integer to 64 bits. -/
def toInt64 (n : Int) : Int :=
  (n + 2 ^ 63) % 2 ^ 64 - 2 ^ 63

/-- Go `reflect.Kind`. -/
inductive Kind where
  | Invalid | Bool
  | Int | Int8 | Int16 | Int32 | Int64
  | Uint | Uint8 | Uint16 | Uint32 | Uint64 | Uintptr
  | Float32 | Float64 | Complex64 | Complex128
  | Array | Chan | Func | Interface | Map | Pointer | Slice | String | Struct | UnsafePointer
deriving DecidableEq, Repr

/-- The signed integer types. -/
inductive IntKind where
  | Int | Int8 | Int16 | Int32 | Int64
deriving DecidableEq, Repr

/-- The unsigned integer types that `Set` lists. -/
inductive UintKind where
  | Uint | Uint8 | Uint16 | Uint32 | Uint64
deriving DecidableEq, Repr

/-- The kinds for which `reflect.Value.Pointer` is defined. -/
inductive PtrKind where
  | Chan | Func | Map | Pointer | Slice | UnsafePointer
deriving DecidableEq, Repr

/-- Width in bits (`int` and `uint` taken at 64 bits). -/
def IntKind.bits : IntKind → Nat
  | .Int => 64 | .Int8 => 8 | .Int16 => 16 | .Int32 => 32 | .Int64 => 64

/-- Width in bits (`int` and `uint` taken at 64 bits). -/
def UintKind.bits : UintKind → Nat
  | .Uint => 64 | .Uint8 => 8 | .Uint16 => 16 | .Uint32 => 32 | .Uint64 => 64

/-- A value passed as `interface{}`. Floats and complex numbers are kept as their
bit patterns; arrays and structs by the size of their type; pointer-like values
by the size of their type and the address `Pointer()` yields. -/
inductive GoValue where
  | nil
  | bool (b : Bool)
  | int (k : IntKind) (i : Int)
  | uint (k : UintKind) (u : Nat)
  | uintptr (u : Nat)
  | float32 (bits : Nat)
  | float64 (bits : Nat)
  | complex64 (bits : Nat)
  | complex128 (bits : Nat)
  | array (size : Nat)
  | struct (size : Nat)
  | string (s : GoString)
  | pointerLike (k : PtrKind) (size : Nat) (addr : Ptr)
deriving DecidableEq, Repr

/-- The value is one Go can hold: an integer lies in the range of its type. -/
def GoValue.WellFormed : GoValue → Prop
  | .int k i => -(2 : Int) ^ (k.bits - 1) ≤ i ∧ i < (2 : Int) ^ (k.bits - 1)
  | .uint k u => u < 2 ^ k.bits
  | _ => True

instance (v : GoValue) : Decidable v.WellFormed := by
  cases v <;> unfold GoValue.WellFormed <;> infer_instance

/-- Go `reflect.ValueOf(val).Kind()`. -/
def GoValue.Kind : GoValue → Kind
  | .nil => .Invalid
  | .bool _ => .Bool
  | .int .Int _ => .Int
  | .int .Int8 _ => .Int8
  | .int .Int16 _ => .Int16
  | .int .Int32 _ => .Int32
  | .int .Int64 _ => .Int64
  | .uint .Uint _ => .Uint
  | .uint .Uint8 _ => .Uint8
  | .uint .Uint16 _ => .Uint16
  | .uint .Uint32 _ => .Uint32
  | .uint .Uint64 _ => .Uint64
  | .uintptr _ => .Uintptr
  | .float32 _ => .Float32
  | .float64 _ => .Float64
  | .complex64 _ => .Complex64
  | .complex128 _ => .Complex128
  | .array _ => .Array
  | .struct _ => .Struct
  | .string _ => .String
  | .pointerLike .Chan _ _ => .Chan
  | .pointerLike .Func _ _ => .Func
  | .pointerLike .Map _ _ => .Map
  | .pointerLike .Pointer _ _ => .Pointer
  | .pointerLike .Slice _ _ => .Slice
  | .pointerLike .UnsafePointer _ _ => .UnsafePointer

/-- Go `v.String()` on a value of string kind. -/
def GoValue.String : GoValue → GoString
  | .string s => s
  | _ => []

/-- Go `v.Int()` on a value of a signed kind: the value as an `int64`. -/
def GoValue.Int : GoValue → Int
  | .int _ i => i
  | _ => 0

/-- Go `v.Uint()` on a value of an unsigned kind: the value as a `uint64`. -/
def GoValue.Uint : GoValue → Nat
  | .uint _ u => u
  | .uintptr u => u
  | _ => 0

/-- Go `reflect.TypeOf(val).Size()`: `none` where the call panics, which is for the
nil interface (`TypeOf` returns a nil `Type`). -/
def GoValue.typeSize : GoValue → Option Nat
  | .nil => none
  | .bool _ => some 1
  | .int k _ => some (k.bits / 8)
  | .uint k _ => some (k.bits / 8)
  | .uintptr _ => some 8
  | .float32 _ => some 4
  | .float64 _ => some 8
  | .complex64 _ => some 8
  | .complex128 _ => some 16
  | .array n => some n
  | .struct n => some n
  | .string _ => some 16
  | .pointerLike _ n _ => some n

/-- Go `reflect.ValueOf(val).Pointer()`: `none` where the call panics, which is for
every kind other than Chan, Func, Map, Pointer, Slice and UnsafePointer. -/
def GoValue.Pointer : GoValue → Option Ptr
  | .pointerLike _ _ a => some a
  | _ => none

/-! ## var_store.go -/

/-- The store: `ptr` is the engine object, `pointers` the C buffers allocated for
it that must be freed after use. -/
structure varStore where
  ptr : Ptr
  pointers : List Ptr
deriving DecidableEq, Repr

/-- Go `newVarStore`. -/
def newVarStore (ptr : Ptr) : varStore :=
  { ptr := ptr, pointers := [] }

/-- Go `varStore.SetString`: result, store and world after the call. -/
def varStore.SetString (E : Engine σ) (s : varStore) (path val : GoString) (w : World σ) :
    Bool × varStore × World σ :=
  let cPath := cString path w.heap
  let cVal := cString val cPath.2
  let s1 : varStore := { ptr := s.ptr, pointers := s.pointers ++ [cPath.1, cVal.1] }
  let r := spSetString E s.ptr cPath.1 cVal.1 (val.length : Int)
    { heap := cVal.2, eng := w.eng, calls := w.calls }
  (r.1, s1, r.2)

/-- Go `varStore.SetInt`: result, store and world after the call. -/
def varStore.SetInt (E : Engine σ) (s : varStore) (path : GoString) (val : Int) (w : World σ) :
    Bool × varStore × World σ :=
  let cPath := cString path w.heap
  let s1 : varStore := { ptr := s.ptr, pointers := s.pointers ++ [cPath.1] }
  let r := spSetInt E s.ptr cPath.1 val { heap := cPath.2, eng := w.eng, calls := w.calls }
  (r.1, s1, r.2)

/-- The path of `varStore.Set` taken by the kinds the switch does not list.
The result is `none` when the call panics; the store and the world are then the
ones at the point of the panic. -/
def varStore.SetOther (E : Engine σ) (s : varStore) (path : GoString) (val : GoValue)
    (w : World σ) : Option Bool × varStore × World σ :=
  let cPath := cString path w.heap
  let s1 : varStore := { ptr := s.ptr, pointers := s.pointers ++ [cPath.1] }
  let w1 : World σ := { heap := cPath.2, eng := w.eng, calls := w.calls }
  match val.typeSize with
  | none => (none, s1, w1)
  | some size =>
    match val.Pointer with
    | none => (none, s1, w1)
    | some p =>
      let r := spSetString E s.ptr cPath.1 p (size : Int) w1
      (some r.1, s1, r.2)

/-- Go `varStore.Set`: the switch on the kind of the value. The result is `none`
when the call panics. -/
def varStore.Set (E : Engine σ) (s : varStore) (path : GoString) (val : GoValue) (w : World σ) :
    Option Bool × varStore × World σ :=
  let v := val
  match v.Kind with
  | .String =>
    let r := s.SetString E path v.String w
    (some r.1, r.2)
  | .Int | .Int64 | .Int8 | .Int16 | .Int32 =>
    let r := s.SetInt E path v.Int w
    (some r.1, r.2)
  | .Uint | .Uint64 | .Uint8 | .Uint16 | .Uint32 =>
    let r := s.SetInt E path (toInt64 v.Uint) w
    (some r.1, r.2)
  | _ => s.SetOther E path val w

/-- Go `varStore.Get`: the pointer to the field and the value left in `*size`. -/
def varStore.Get (E : Engine σ) (s : varStore) (path : GoString) (size : Int) (w : World σ) :
    (Ptr × Int) × World σ :=
  spGetString E s.ptr path size w

/-- The Go string whose header is `Data: ptr, Len: len`, read through the memory
of the world: the empty string when `len` is 0, `none` when the header does not
describe readable memory. -/
def stringAt (E : Engine σ) (w : World σ) (ptr : Ptr) (len : Int) : Option GoString :=
  if len = 0 then some []
  else
    match E.load w.eng ptr with
    | some bs => readBytes bs len
    | none => w.heap.read ptr len

/-- Go `varStore.GetString`: the string, the value left in `*size`, the world. -/
def varStore.GetString (E : Engine σ) (s : varStore) (path : GoString) (size : Int)
    (w : World σ) : Option GoString × Int × World σ :=
  let r := spGetString E s.ptr path size w
  (stringAt E r.2 r.1.1 r.1.2, r.1.2, r.2)

/-- Go `varStore.GetObject`. -/
def varStore.GetObject (E : Engine σ) (s : varStore) (path : GoString) (w : World σ) :
    Ptr × World σ :=
  spGetObject E s.ptr path w

/-- Go `varStore.GetInt`. -/
def varStore.GetInt (E : Engine σ) (s : varStore) (key : GoString) (w : World σ) :
    Int × World σ :=
  spGetInt E s.ptr key w

/-- Go `varStore.Free`: every tracked pointer is freed, in order, and the slice is
cut to length 0. -/
def varStore.Free (s : varStore) (w : World σ) : varStore × World σ :=
  ({ ptr := s.ptr, pointers := s.pointers.take 0 },
   { heap := s.pointers.foldl (fun h f => free f h) w.heap, eng := w.eng, calls := w.calls })

/-! ## transaction.go -/

/-- Go `TxStatus` is a Go `int`. -/
abbrev TxStatus := Int

/-- Transaction has been completed with error. -/
def TxError : TxStatus := -1
/-- Transaction has been completed. -/
def TxOk : TxStatus := 0
/-- Transaction has been rollbacked by another concurrent transaction. -/
def TxRollback : TxStatus := 1
/-- Transaction is not finished and waits for a concurrent transaction. -/
def TxLock : TxStatus := 2

/-- Modelled from the spec: `dataStore` (its declaration is not among the
sources); the transaction uses only its engine handle `ptr`. -/
structure dataStore where
  ptr : Ptr
deriving DecidableEq, Repr

/-- Go `Transaction` embeds a `dataStore`. -/
structure Transaction where
  dataStore : dataStore
deriving DecidableEq, Repr

/-- Go `Transaction.Commit`. -/
def Transaction.Commit (E : Engine σ) (tx : Transaction) (w : World σ) : TxStatus × World σ :=
  spCommit E tx.dataStore.ptr w

/-- Go `Transaction.Rollback`: the error (`none` is Go `nil`) and the world. -/
def Transaction.Rollback (E : Engine σ) (tx : Transaction) (w : World σ) :
    Option String × World σ :=
  let r := spDestroy E tx.dataStore.ptr w
  if !r.1 then (some "tx: failed to rollback", r.2) else (none, r.2)

/-! ## Sequences of calls on one store -/

/-- One call on a store. -/
inductive Op where
  | set (path : GoString) (val : GoValue)
  | setString (path val : GoString)
  | setInt (path : GoString) (val : Int)
  | get (path : GoString) (size : Int)
  | getString (path : GoString) (size : Int)
  | getObject (path : GoString)
  | getInt (path : GoString)
  | free
deriving DecidableEq, Repr

/-- The store and the world after one call, whatever it returned. A `Set` that
panics leaves the store and the world as they were at the panic. -/
def Op.step (E : Engine σ) (op : Op) (sw : varStore × World σ) : varStore × World σ :=
  match op with
  | .set path val => (sw.1.Set E path val sw.2).2
  | .setString path val => (sw.1.SetString E path val sw.2).2
  | .setInt path val => (sw.1.SetInt E path val sw.2).2
  | .get path size => (sw.1, (sw.1.Get E path size sw.2).2)
  | .getString path size => (sw.1, (sw.1.GetString E path size sw.2).2.2)
  | .getObject path => (sw.1, (sw.1.GetObject E path sw.2).2)
  | .getInt path => (sw.1, (sw.1.GetInt E path sw.2).2)
  | .free => sw.1.Free sw.2

/-- The calls of a sequence, one after the other. -/
def run (E : Engine σ) (ops : List Op) (sw : varStore × World σ) : varStore × World σ :=
  ops.foldl (fun st op => op.step E st) sw

/-- The calls that only read. -/
def Op.isGetter : Op → Bool
  | .get _ _ | .getString _ _ | .getObject _ | .getInt _ => true
  | _ => false

/-- The number of C buffers one call allocates: path and value for a string,
the path alone for every other value. -/
def Op.allocs : Op → Nat
  | .set _ (.string _) => 2
  | .set _ _ => 1
  | .setString _ _ => 2
  | .setInt _ _ => 1
  | _ => 0

/-- The number of C buffers a sequence of calls allocates. -/
def allocCount (ops : List Op) : Nat :=
  (ops.map Op.allocs).sum

/-! ## Model engines -/

/-- What the keeping engine holds for one field. -/
inductive Field where
  | bytes (b : List Byte)
  | int (v : Int)
deriving DecidableEq, Repr

/-- One field kept by the engine: the address of its copy in engine memory, the
object and the path it belongs to, and the value. -/
structure Entry where
  addr : Ptr
  obj : Ptr
  key : List Byte
  val : Field
deriving DecidableEq, Repr

/-- The state of the keeping engine: the fields it was handed, newest first. -/
structure Store where
  entries : List Entry
deriving DecidableEq, Repr

/-- The newest field kept for an object under a path. -/
def Store.find (st : Store) (obj : Ptr) (key : List Byte) : Option Entry :=
  st.entries.find? (fun e => e.obj == obj && e.key == key)

/-- The field whose copy lives at an address. -/
def Store.atAddr (st : Store) (p : Ptr) : Option Entry :=
  st.entries.find? (fun e => e.addr == p)

/-- Keep a field for an object under a path. -/
def Store.put (st : Store) (obj : Ptr) (key : List Byte) (val : Field) : Store :=
  { entries := { addr := st.entries.length + 1, obj := obj, key := key, val := val } :: st.entries }

/-- Modelled from the spec: the engine as the round-trip properties take it. It
keeps, under the path of the field (read as a C string), the 64-bit integer or
the bytes (with their length) it is handed, and returns them for that path. -/
def keepEngine : Engine Store where
  setString st h obj path val size :=
    match h.cstrAt path, h.read val size with
    | some key, some bs => (true, st.put obj key (.bytes bs))
    | _, _ => (false, st)
  setInt st h obj path val :=
    match h.cstrAt path with
    | some key => (true, st.put obj key (.int val))
    | none => (false, st)
  getString st obj path size :=
    match st.find obj (cstr path) with
    | some { addr := a, obj := _, key := _, val := .bytes bs } => ((a, (bs.length : Int)), st)
    | _ => ((0, size), st)
  getObject st _ _ := (0, st)
  getInt st obj path :=
    match st.find obj (cstr path) with
    | some { addr := _, obj := _, key := _, val := .int v } => (v, st)
    | _ => (-1, st)
  commit st _ := (0, st)
  destroy st _ := (true, st)
  load st p :=
    match st.atAddr p with
    | some { addr := _, obj := _, key := _, val := .bytes bs } => some bs
    | _ => none

/-- An engine without state that gives fixed answers: `setOk` to every field
set, `code` to every commit, `destroyOk` to every destroy. With `setOk = false`
it is an engine whose schema declares no field. -/
def fixedEngine (setOk : Bool) (code : Int) (destroyOk : Bool) : Engine Unit where
  setString _ _ _ _ _ _ := (setOk, ())
  setInt _ _ _ _ _ := (setOk, ())
  getString _ _ _ size := ((0, size), ())
  getObject _ _ _ := (0, ())
  getInt _ _ _ := (-1, ())
  commit _ _ := (code, ())
  destroy _ _ := (destroyOk, ())
  load _ _ := none

/-- A heap on which nothing was allocated or released. -/
def emptyHeap : CHeap :=
  { next := 1, blocks := [], released := [] }

/-- A world with an empty heap and an empty call log. -/
def World.fresh (st : σ) : World σ :=
  { heap := emptyHeap, eng := st, calls := [] }

/-! ## Schema -/

/-- Modelled from the spec: `FieldType` (schema.go is not among the sources), the
closed enumeration of section 3. -/
inductive FieldType where
  | String | UInt8 | UInt16 | UInt32 | UInt64
deriving DecidableEq, Repr

/-- Modelled from the spec: `Schema` (schema.go is not among the sources): two
ordered sequences of `(name, FieldType)` pairs, `keys` and `values`. -/
structure Schema where
  keys : List (String × FieldType)
  values : List (String × FieldType)
deriving DecidableEq, Repr

/-- Modelled from the spec: whether a name is present in a sequence of fields. -/
def hasField (fields : List (String × FieldType)) (name : String) : Bool :=
  fields.any (fun f => f.1 == name)

/-- Modelled from the spec: `Schema.AddKey` (schema.go is not among the sources).
It appends `(name, type)` to the key sequence unless `name` already exists in
that sequence, in which case it reports a duplicate-field condition and leaves
the schema unchanged. The error is `none` for Go `nil`. -/
def Schema.AddKey (s : Schema) (name : String) (typ : FieldType) : Option String × Schema :=
  if hasField s.keys name then (some "duplicate field", s)
  else (none, { keys := s.keys ++ [(name, typ)], values := s.values })

/-- Modelled from the spec: `Schema.AddValue` (schema.go is not among the
sources), the same on the value sequence. -/
def Schema.AddValue (s : Schema) (name : String) (typ : FieldType) : Option String × Schema :=
  if hasField s.values name then (some "duplicate field", s)
  else (none, { keys := s.keys, values := s.values ++ [(name, typ)] })

/-- Modelled from the spec: the type a sequence declares for a name. -/
def declaredType (fields : List (String × FieldType)) (name : String) : Option FieldType :=
  fields.lookup name

/-! ## Inputs for the concrete cases -/

/-- The path `key`, as bytes. -/
def keyPath : GoString := [107, 101, 121]

/-- The string `v1`, as bytes. -/
def v1Bytes : GoString := [118, 49]

/-! ## The claims, in the words of the specification -/

/-- The dispatch of `Set` as the specification words it: a value of string kind
goes to `SetString`; a value of a signed kind goes to `SetInt`, widened to
`int64`; a value `u` of an unsigned kind goes to `SetInt` reinterpreted as a
64-bit two's-complement integer, `u` when `u < 2^63` and `u - 2^64` otherwise.
Nothing is said of the other kinds. -/
def SetSpec (E : Engine σ) (s : varStore) (path : GoString) (val : GoValue) (w : World σ) :
    Option (Bool × varStore × World σ) :=
  match val with
  | .string str => some (s.SetString E path str w)
  | .int _ i => some (s.SetInt E path i w)
  | .uint _ u => some (s.SetInt E path (if u < 2 ^ 63 then (u : Int) else (u : Int) - 2 ^ 64) w)
  | _ => none

/-- Whether the value is of one of the integer kinds `Set` lists. -/
def GoValue.isInteger : GoValue → Bool
  | .int _ _ => true
  | .uint _ _ => true
  | _ => false

/-- The number an integer value stands for. -/
def GoValue.numeric : GoValue → ℤ
  | .int _ i => i
  | .uint _ u => (u : ℤ)
  | _ => 0

/-- The calls of a sequence, then a final `Free`. -/
def runFree (E : Engine σ) (ops : List Op) (sw : varStore × World σ) : varStore × World σ :=
  (run E ops sw).1.Free (run E ops sw).2

/-- The bookkeeping invariant of a store since a point where the release log was
`R0` and the next fresh address `n0`: `k` buffers were allocated since, they are
the addresses `n0, ..., n0 + k - 1`, and each of them is either in the part of
the log written since (`log`) or still tracked, in the order of allocation. -/
def Tracked (R0 : List Ptr) (n0 k : Nat) (sw : varStore × World σ) : Prop :=
  sw.2.heap.next = n0 + k
    ∧ ∃ log, sw.2.heap.released = R0 ++ log ∧ log ++ sw.1.pointers = List.range' n0 k

/-! ## Helper lemmas -/

theorem foldl_free_released (ps : List Ptr) (h : CHeap) :
    (ps.foldl (fun h f => free f h) h).released = h.released ++ ps := by
  induction ps generalizing h with
  | nil => simp
  | cons p ps ih =>
    rw [List.foldl_cons, ih]
    simp [free]

theorem foldl_free_next (ps : List Ptr) (h : CHeap) :
    (ps.foldl (fun h f => free f h) h).next = h.next := by
  induction ps generalizing h with
  | nil => simp
  | cons p ps ih =>
    rw [List.foldl_cons, ih]
    rfl

/-! ## C1: Free -/

/-- C1: `Free` on a store whose tracked list is `P` appends exactly `P`, in list
order, to the log of releases (so each tracked element is released once and
nothing else is), leaves the tracked list empty, keeps the engine handle `ptr`,
and makes no call into the engine (it never destroys the engine object). -/
theorem Free_releases_tracked (s : varStore) (w : World σ) :
    (s.Free w).2.heap.released = w.heap.released ++ s.pointers
      ∧ (s.Free w).1.pointers = []
      ∧ (s.Free w).1.ptr = s.ptr
      ∧ (s.Free w).2.calls = w.calls
      ∧ (s.Free w).2.eng = w.eng := by
  refine ⟨?_, ?_, rfl, rfl, rfl⟩
  · simp [varStore.Free, foldl_free_released]
  · simp [varStore.Free]

/-! ## C6, C7: the transaction -/

/-- C6: when the engine answers the commit with a code `c` among -1, 0, 1, 2,
`Commit` returns `TxError` for -1, `TxOk` for 0, `TxRollback` for 1 and `TxLock`
for 2; the four statuses are pairwise distinct, and `Commit` returns `TxOk`
exactly when the engine answered 0. -/
theorem Commit_maps_code (E : Engine σ) (tx : Transaction) (w : World σ) (c : Int)
    (hc : (E.commit w.eng tx.dataStore.ptr).1 = c)
    (hmem : c = -1 ∨ c = 0 ∨ c = 1 ∨ c = 2) :
    (tx.Commit E w).1
        = (if c = -1 then TxError else if c = 0 then TxOk
           else if c = 1 then TxRollback else TxLock)
      ∧ (TxError ≠ TxOk ∧ TxError ≠ TxRollback ∧ TxError ≠ TxLock
          ∧ TxOk ≠ TxRollback ∧ TxOk ≠ TxLock ∧ TxRollback ≠ TxLock)
      ∧ ((tx.Commit E w).1 = TxOk ↔ c = 0) := by
  have h : (tx.Commit E w).1 = c := by simp [Transaction.Commit, spCommit, hc]
  refine ⟨?_, by decide, ?_⟩
  · rw [h]
    rcases hmem with rfl | rfl | rfl | rfl <;> decide
  · rw [h]; rfl

/-- C6 at an engine that answers 2: `Commit` returns `TxLock`, not `TxOk`. -/
theorem Commit_maps_code_witness :
    ((fixedEngine true 2 true).commit () 5).1 = 2
      ∧ ((Transaction.mk ⟨5⟩).Commit (fixedEngine true 2 true) (World.fresh ())).1 = TxLock
      ∧ ¬ ((Transaction.mk ⟨5⟩).Commit (fixedEngine true 2 true) (World.fresh ())).1 = TxOk := by
  have h := Commit_maps_code (fixedEngine true 2 true) (Transaction.mk ⟨5⟩) (World.fresh ()) 2
    rfl (by decide)
  refine ⟨rfl, ?_, ?_⟩
  · simpa using h.1
  · rw [h.2.2]; decide

/-- C7: `Rollback` adds exactly one call to the engine, a destroy of the handle of
the transaction, and returns an error exactly when that destroy reports
failure; when the destroy succeeds it returns nil. -/
theorem Rollback_destroys_once (E : Engine σ) (tx : Transaction) (w : World σ) :
    (tx.Rollback E w).2.calls = w.calls ++ [Call.destroy tx.dataStore.ptr]
      ∧ ((tx.Rollback E w).1 ≠ none ↔ (E.destroy w.eng tx.dataStore.ptr).1 = false)
      ∧ ((E.destroy w.eng tx.dataStore.ptr).1 = true → (tx.Rollback E w).1 = none) := by
  unfold Transaction.Rollback spDestroy
  cases hd : (E.destroy w.eng tx.dataStore.ptr).1 <;> simp [hd]

/-- C7 at an engine whose destroy fails and at one whose destroy succeeds. -/
theorem Rollback_destroys_once_witness :
    ((Transaction.mk ⟨5⟩).Rollback (fixedEngine true 0 false) (World.fresh ())).1
        = some "tx: failed to rollback"
      ∧ ((Transaction.mk ⟨5⟩).Rollback (fixedEngine true 0 true) (World.fresh ())).1 = none
      ∧ ((Transaction.mk ⟨5⟩).Rollback (fixedEngine true 0 false) (World.fresh ())).2.calls
        = [Call.destroy 5] := by
  refine ⟨rfl, ?_, ?_⟩
  · exact (Rollback_destroys_once (fixedEngine true 0 true) (Transaction.mk ⟨5⟩)
      (World.fresh ())).2.2 rfl
  · exact (Rollback_destroys_once (fixedEngine true 0 false) (Transaction.mk ⟨5⟩)
      (World.fresh ())).1

/-! ## C8: duplicate fields of a schema -/

theorem hasField_of_mem (fields : List (String × FieldType)) (name : String)
    (h : name ∈ fields.map Prod.fst) : hasField fields name = true := by
  rcases List.mem_map.1 h with ⟨f, hf, rfl⟩
  exact List.any_eq_true.2 ⟨f, hf, by simp⟩

/-- C8: when a name is already a key field (resp. a value field), `AddKey`
(resp. `AddValue`) with that name and any field type returns an error and leaves
the schema unchanged: the key and value field counts, the order of the names and
the type declared for the name are as before, and the other sequence is
untouched. -/
theorem AddKey_AddValue_duplicate (s : Schema) (name : String) (typ : FieldType) :
    (name ∈ s.keys.map Prod.fst →
        (s.AddKey name typ).1 ≠ none
          ∧ (s.AddKey name typ).2 = s
          ∧ (s.AddKey name typ).2.keys.length = s.keys.length
          ∧ (s.AddKey name typ).2.values.length = s.values.length
          ∧ (s.AddKey name typ).2.keys.map Prod.fst = s.keys.map Prod.fst
          ∧ declaredType (s.AddKey name typ).2.keys name = declaredType s.keys name
          ∧ (s.AddKey name typ).2.values = s.values)
      ∧ (name ∈ s.values.map Prod.fst →
        (s.AddValue name typ).1 ≠ none
          ∧ (s.AddValue name typ).2 = s
          ∧ (s.AddValue name typ).2.values.length = s.values.length
          ∧ (s.AddValue name typ).2.keys.length = s.keys.length
          ∧ (s.AddValue name typ).2.values.map Prod.fst = s.values.map Prod.fst
          ∧ declaredType (s.AddValue name typ).2.values name = declaredType s.values name
          ∧ (s.AddValue name typ).2.keys = s.keys) := by
  constructor
  · intro h
    have hk := hasField_of_mem s.keys name h
    simp [Schema.AddKey, hk]
  · intro h
    have hv := hasField_of_mem s.values name h
    simp [Schema.AddValue, hv]

/-- C8 on the schema of the tests: a second `AddKey` of `key`, even with another
type, reports the duplicate and keeps the one key field and its type. -/
theorem AddKey_AddValue_duplicate_witness :
    "key" ∈ (Schema.mk [("key", FieldType.String)] []).keys.map Prod.fst
      ∧ ((Schema.mk [("key", FieldType.String)] []).AddKey "key" FieldType.UInt32).1 ≠ none
      ∧ ((Schema.mk [("key", FieldType.String)] []).AddKey "key" FieldType.UInt32).2
          = Schema.mk [("key", FieldType.String)] []
      ∧ "key" ∈ (Schema.mk [] [("key", FieldType.String)]).values.map Prod.fst
      ∧ ((Schema.mk [] [("key", FieldType.String)]).AddValue "key" FieldType.UInt32).2
          = Schema.mk [] [("key", FieldType.String)] := by
  have hk : "key" ∈ (Schema.mk [("key", FieldType.String)] []).keys.map Prod.fst := by simp
  have hv : "key" ∈ (Schema.mk [] [("key", FieldType.String)]).values.map Prod.fst := by simp
  have h1 := (AddKey_AddValue_duplicate (Schema.mk [("key", FieldType.String)] []) "key"
    FieldType.UInt32).1 hk
  have h2 := (AddKey_AddValue_duplicate (Schema.mk [] [("key", FieldType.String)]) "key"
    FieldType.UInt32).2 hv
  exact ⟨hk, h1.1, h1.2.1, hv, h2.2.1⟩

/-! ## C5: the kinds `Set` does not list -/

/-- C5, the code at the failing inputs: `Set` panics (its result is `none`) on a
bool, on the nil interface, on a float, on a struct and on an array, with the
path buffer already allocated and tracked. -/
theorem Set_panics_on_unlisted_kinds :
    ((newVarStore 7).Set (fixedEngine true 0 true) keyPath (GoValue.bool true) (World.fresh ())).1
        = none
      ∧ ((newVarStore 7).Set (fixedEngine true 0 true) keyPath GoValue.nil (World.fresh ())).1
        = none
      ∧ ((newVarStore 7).Set (fixedEngine true 0 true) keyPath (GoValue.float64 0)
          (World.fresh ())).1 = none
      ∧ ((newVarStore 7).Set (fixedEngine true 0 true) keyPath (GoValue.struct 16)
          (World.fresh ())).1 = none
      ∧ ((newVarStore 7).Set (fixedEngine true 0 true) keyPath (GoValue.array 4)
          (World.fresh ())).1 = none
      ∧ ((newVarStore 7).Set (fixedEngine true 0 true) keyPath (GoValue.bool true)
          (World.fresh ())).2.1.pointers = [1] := by
  decide

/-! ## C4: a field set the engine rejects -/

/-- C4 fails as stated: with an engine that rejects the field, `SetInt`, `SetString`
and `Set` return false and the store is not the store before the call. -/
theorem Set_failure_changes_store :
    ((newVarStore 7).SetInt (fixedEngine false 0 true) keyPath 5 (World.fresh ())).1 = false
      ∧ ((newVarStore 7).SetInt (fixedEngine false 0 true) keyPath 5 (World.fresh ())).2.1
          ≠ newVarStore 7
      ∧ ((newVarStore 7).SetString (fixedEngine false 0 true) keyPath v1Bytes (World.fresh ())).1
          = false
      ∧ ((newVarStore 7).SetString (fixedEngine false 0 true) keyPath v1Bytes (World.fresh ())).2.1
          ≠ newVarStore 7
      ∧ ((newVarStore 7).Set (fixedEngine false 0 true) keyPath (GoValue.string v1Bytes)
          (World.fresh ())).1 = some false
      ∧ ((newVarStore 7).Set (fixedEngine false 0 true) keyPath (GoValue.string v1Bytes)
          (World.fresh ())).2.1 ≠ newVarStore 7 := by
  decide

/-- The store after `Set` on any value: the handle is kept and the tracked list
is the one before with the buffers of this call appended. -/
theorem Set_store (E : Engine σ) (s : varStore) (path : GoString) (val : GoValue) (w : World σ) :
    (s.Set E path val w).2.1.ptr = s.ptr
      ∧ (s.Set E path val w).2.1.pointers
          = s.pointers ++ List.range' w.heap.next (Op.allocs (Op.set path val))
      ∧ (s.Set E path val w).2.2.heap.next = w.heap.next + Op.allocs (Op.set path val)
      ∧ (s.Set E path val w).2.2.heap.released = w.heap.released := by
  cases val with
  | int k i =>
    cases k <;>
      simp [varStore.Set, GoValue.Kind, varStore.SetInt, spSetInt, cString, Op.allocs]
  | uint k u =>
    cases k <;>
      simp [varStore.Set, GoValue.Kind, varStore.SetInt, spSetInt, cString, Op.allocs]
  | pointerLike k n a =>
    cases k <;>
      simp [varStore.Set, GoValue.Kind, varStore.SetOther, GoValue.typeSize, GoValue.Pointer,
        spSetString, cString, Op.allocs]
  | string str =>
    simp [varStore.Set, GoValue.Kind, varStore.SetString, spSetString, cString, Op.allocs,
      List.range'_succ]
  | _ =>
    simp [varStore.Set, GoValue.Kind, varStore.SetOther, GoValue.typeSize, GoValue.Pointer,
      cString, Op.allocs]

/-- C4 as amended: if `SetString`, `SetInt` or `Set` returns false, the store
keeps its engine handle and its tracked list is the list before the call with
the buffers allocated by the call appended at the end (path and value for a
string, the path for an integer); what was tracked before stays tracked, in
the same order. -/
theorem Set_failure_tracks_buffers (E : Engine σ) (s : varStore) (path : GoString)
    (w : World σ) :
    (∀ val : GoString, (s.SetString E path val w).1 = false →
        (s.SetString E path val w).2.1.ptr = s.ptr
          ∧ (s.SetString E path val w).2.1.pointers
              = s.pointers ++ [w.heap.next, w.heap.next + 1])
      ∧ (∀ val : Int, (s.SetInt E path val w).1 = false →
        (s.SetInt E path val w).2.1.ptr = s.ptr
          ∧ (s.SetInt E path val w).2.1.pointers = s.pointers ++ [w.heap.next])
      ∧ (∀ val : GoValue, (s.Set E path val w).1 = some false →
        (s.Set E path val w).2.1.ptr = s.ptr
          ∧ (s.Set E path val w).2.1.pointers
              = s.pointers ++ List.range' w.heap.next (Op.allocs (Op.set path val))) := by
  refine ⟨fun val _ => ?_, fun val _ => ?_, fun val _ => ?_⟩
  · simp [varStore.SetString, cString]
  · simp [varStore.SetInt, cString]
  · exact ⟨(Set_store E s path val w).1, (Set_store E s path val w).2.1⟩

/-- C4 as amended, at an engine that rejects every field. -/
theorem Set_failure_tracks_buffers_witness :
    ((newVarStore 7).SetString (fixedEngine false 0 true) keyPath v1Bytes (World.fresh ())).1
        = false
      ∧ ((newVarStore 7).SetString (fixedEngine false 0 true) keyPath v1Bytes
          (World.fresh ())).2.1.ptr = 7
      ∧ ((newVarStore 7).SetString (fixedEngine false 0 true) keyPath v1Bytes
          (World.fresh ())).2.1.pointers = [1, 2]
      ∧ ((newVarStore 7).SetInt (fixedEngine false 0 true) keyPath 5 (World.fresh ())).2.1.pointers
          = [1] := by
  have h := Set_failure_tracks_buffers (fixedEngine false 0 true) (newVarStore 7) keyPath
    (World.fresh ())
  exact ⟨rfl, (h.1 v1Bytes rfl).1, (h.1 v1Bytes rfl).2, (h.2.1 5 rfl).2⟩

/-! ## C10: the dispatch of `Set` -/

theorem toInt64_of_lt (n : Int) (h0 : 0 ≤ n) (h1 : n < 2 ^ 64) :
    toInt64 n = if n < 2 ^ 63 then n else n - 2 ^ 64 := by
  unfold toInt64
  have e63 : (2 : Int) ^ 63 = 9223372036854775808 := by norm_num
  have e64 : (2 : Int) ^ 64 = 18446744073709551616 := by norm_num
  rw [e63, e64] at *
  split <;> omega

theorem toInt64_of_range (n : Int) (h0 : -(2 : Int) ^ 63 ≤ n) (h1 : n < 2 ^ 63) :
    toInt64 n = n := by
  unfold toInt64
  have e63 : (2 : Int) ^ 63 = 9223372036854775808 := by norm_num
  have e64 : (2 : Int) ^ 64 = 18446744073709551616 := by norm_num
  rw [e63, e64] at *
  omega

theorem uint_pow_bits_le (k : UintKind) : 2 ^ k.bits ≤ 2 ^ 64 := by
  cases k <;> decide

/-- C10: `Set` refines the dispatch the specification words. On a well-formed
value of string kind it has the result and the effect of `SetString`; on a
signed integer those of `SetInt` on the value widened to `int64`; on an
unsigned integer `u` those of `SetInt` on `u` when `u < 2^63` and on `u - 2^64`
otherwise. -/
theorem Set_refines_typed_setters (E : Engine σ) (s : varStore) (path : GoString)
    (val : GoValue) (w : World σ) (r : Bool × varStore × World σ)
    (hwf : val.WellFormed) (hspec : SetSpec E s path val w = some r) :
    s.Set E path val w = (some r.1, r.2) := by
  cases val with
  | string str =>
    simp only [SetSpec, Option.some.injEq] at hspec
    subst hspec
    rfl
  | int k i =>
    simp only [SetSpec, Option.some.injEq] at hspec
    subst hspec
    cases k <;> rfl
  | uint k u =>
    simp only [SetSpec, Option.some.injEq] at hspec
    subst hspec
    have hu : (u : Int) < 2 ^ 64 := by
      have h1 : u < 2 ^ 64 := lt_of_lt_of_le hwf (uint_pow_bits_le k)
      exact_mod_cast h1
    have hconv : toInt64 (u : Int) = if u < 2 ^ 63 then (u : Int) else (u : Int) - 2 ^ 64 := by
      rw [toInt64_of_lt (u : Int) (Int.ofNat_nonneg u) hu]
      have hiff : ((u : Int) < 2 ^ 63) ↔ u < 2 ^ 63 := by
        constructor
        · intro h; exact_mod_cast h
        · intro h; exact_mod_cast h
      by_cases hlt : u < 2 ^ 63
      · rw [if_pos hlt, if_pos (hiff.2 hlt)]
      · rw [if_neg hlt, if_neg (fun h => hlt (hiff.1 h))]
    cases k <;> simp only [varStore.Set, GoValue.Kind, GoValue.Uint, hconv]
  | _ => simp [SetSpec] at hspec

/-- C10 at the unsigned value `2^63`: `Set` is `SetInt` on `-2^63`. -/
theorem Set_refines_typed_setters_witness :
    (GoValue.uint UintKind.Uint64 (2 ^ 63)).WellFormed
      ∧ ((newVarStore 7).Set (fixedEngine true 0 true) keyPath
          (GoValue.uint UintKind.Uint64 (2 ^ 63)) (World.fresh ())).2.2.calls
        = [Call.setInt 7 1 (-(2 ^ 63))] := by
  have hwf : (GoValue.uint UintKind.Uint64 (2 ^ 63)).WellFormed := by decide
  have h := Set_refines_typed_setters (fixedEngine true 0 true) (newVarStore 7) keyPath
    (GoValue.uint UintKind.Uint64 (2 ^ 63)) (World.fresh ()) _ hwf rfl
  refine ⟨hwf, ?_⟩
  rw [h]
  decide

/-! ## C2, C3: round trips through the keeping engine -/

theorem cstr_append_zero (s : List Byte) : cstr (s ++ [0]) = cstr s := by
  induction s with
  | nil => simp [cstr]
  | cons a t ih =>
    unfold cstr at *
    by_cases h : a = 0
    · simp [h]
    · simp [List.takeWhile_cons, h, ih]

theorem readBytes_append (str t : List Byte) :
    readBytes (str ++ t) (str.length : Int) = some str := by
  simp [readBytes]

theorem readBytes_self (str : List Byte) : readBytes str (str.length : Int) = some str := by
  simp [readBytes]

theorem lookup_second (n : Ptr) (a b : List Byte) (l : List (Ptr × List Byte)) :
    List.lookup n ((n + 1, a) :: (n, b) :: l) = some b := by
  have h : (n == n + 1) = false := by simp
  simp [List.lookup_cons, h]

theorem lookup_first (n : Ptr) (a : List Byte) (l : List (Ptr × List Byte)) :
    List.lookup n ((n, a) :: l) = some a := by
  simp [List.lookup_cons]

theorem SetString_keep (s : varStore) (path str : GoString) (w : World Store) :
    s.SetString keepEngine path str w
      = (true, { ptr := s.ptr, pointers := s.pointers ++ [w.heap.next, w.heap.next + 1] },
          { heap := (cString str (cString path w.heap).2).2,
            eng := w.eng.put s.ptr (cstr path) (Field.bytes str),
            calls := w.calls
              ++ [Call.setString s.ptr w.heap.next (w.heap.next + 1) (str.length : Int)] }) := by
  simp [varStore.SetString, spSetString, keepEngine, cString, CHeap.cstrAt, CHeap.read,
    CHeap.block, lookup_second, lookup_first, readBytes_append, cstr_append_zero]

theorem keep_getString_put (st : Store) (obj : Ptr) (path : GoString) (bs : List Byte)
    (size : Int) :
    keepEngine.getString (st.put obj (cstr path) (Field.bytes bs)) obj path size
      = ((st.entries.length + 1, (bs.length : Int)), st.put obj (cstr path) (Field.bytes bs)) := by
  simp [keepEngine, Store.find, Store.put]

theorem keep_load_put (st : Store) (obj : Ptr) (key bs : List Byte) :
    keepEngine.load (st.put obj key (Field.bytes bs)) (st.entries.length + 1) = some bs := by
  simp [keepEngine, Store.atAddr, Store.put]

theorem GetString_keep_put (s : varStore) (path : GoString) (bs : List Byte) (size0 : Int)
    (h : CHeap) (st : Store) (calls : List Call) :
    ((s.GetString keepEngine path size0
        { heap := h, eng := st.put s.ptr (cstr path) (Field.bytes bs), calls := calls }).1
        = some bs)
      ∧ (s.GetString keepEngine path size0
        { heap := h, eng := st.put s.ptr (cstr path) (Field.bytes bs), calls := calls }).2.1
        = (bs.length : Int) := by
  constructor
  · simp only [varStore.GetString, spGetString, keep_getString_put, stringAt, keep_load_put]
    by_cases hlen : (bs.length : Int) = 0
    · have hnil : bs = [] := by
        have : bs.length = 0 := by exact_mod_cast hlen
        exact List.length_eq_zero.1 this
      simp [hnil]
    · simp [hlen, readBytes_self]
  · simp only [varStore.GetString, spGetString, keep_getString_put]

theorem SetInt_keep (s : varStore) (path : GoString) (val : Int) (w : World Store) :
    (s.SetInt keepEngine path val w).1 = true
      ∧ ((s.SetInt keepEngine path val w).2.1.GetInt keepEngine path
          (s.SetInt keepEngine path val w).2.2).1 = val := by
  simp [varStore.SetInt, varStore.GetInt, spSetInt, spGetInt, keepEngine, cString,
    CHeap.cstrAt, CHeap.block, Store.find, Store.put, cstr_append_zero]

theorem int_range_le (k : IntKind) (i : Int)
    (h : -(2 : Int) ^ (k.bits - 1) ≤ i ∧ i < (2 : Int) ^ (k.bits - 1)) :
    -(2 : Int) ^ 63 ≤ i ∧ i < (2 : Int) ^ 63 := by
  cases k <;> simp only [IntKind.bits] at h <;> norm_num at h ⊢ <;> omega

theorem toInt64_numeric (v : GoValue) (hint : v.isInteger = true) (hwf : v.WellFormed) :
    toInt64 v.numeric = if v.numeric < 2 ^ 63 then v.numeric else v.numeric - 2 ^ 64 := by
  cases v with
  | int k i =>
    have hr := int_range_le k i hwf
    simp only [GoValue.numeric]
    rw [toInt64_of_range i hr.1 hr.2, if_pos hr.2]
  | uint k u =>
    have hu : (u : Int) < 2 ^ 64 := by
      have h1 : u < 2 ^ 64 := lt_of_lt_of_le hwf (uint_pow_bits_le k)
      exact_mod_cast h1
    simp only [GoValue.numeric]
    exact toInt64_of_lt (u : Int) (Int.ofNat_nonneg u) hu
  | _ => simp [GoValue.isInteger] at hint

theorem Set_integer (E : Engine σ) (s : varStore) (path : GoString) (v : GoValue) (w : World σ)
    (hint : v.isInteger = true) (hwf : v.WellFormed) :
    s.Set E path v w
      = (some (s.SetInt E path (toInt64 v.numeric) w).1,
          (s.SetInt E path (toInt64 v.numeric) w).2) := by
  cases v with
  | int k i =>
    have hr := int_range_le k i hwf
    simp only [GoValue.numeric]
    rw [toInt64_of_range i hr.1 hr.2]
    cases k <;> rfl
  | uint k u => cases k <;> rfl
  | _ => simp [GoValue.isInteger] at hint

/-- C2 fails as stated: the unsigned value `2^63` is set with success, and
`GetInt` then returns `-2^63`, which is not numerically equal to it. -/
theorem Set_GetInt_uint64_wraps :
    (GoValue.uint UintKind.Uint64 (2 ^ 63)).WellFormed
      ∧ ((newVarStore 7).Set keepEngine keyPath (GoValue.uint UintKind.Uint64 (2 ^ 63))
          (World.fresh ⟨[]⟩)).1 = some true
      ∧ (((newVarStore 7).Set keepEngine keyPath (GoValue.uint UintKind.Uint64 (2 ^ 63))
          (World.fresh ⟨[]⟩)).2.1.GetInt keepEngine keyPath
          ((newVarStore 7).Set keepEngine keyPath (GoValue.uint UintKind.Uint64 (2 ^ 63))
            (World.fresh ⟨[]⟩)).2.2).1 = -(2 ^ 63)
      ∧ (((newVarStore 7).Set keepEngine keyPath (GoValue.uint UintKind.Uint64 (2 ^ 63))
          (World.fresh ⟨[]⟩)).2.1.GetInt keepEngine keyPath
          ((newVarStore 7).Set keepEngine keyPath (GoValue.uint UintKind.Uint64 (2 ^ 63))
            (World.fresh ⟨[]⟩)).2.2).1 ≠ (GoValue.uint UintKind.Uint64 (2 ^ 63)).numeric := by
  decide

/-- C2 as amended: for every well-formed Go integer value `v` of a signed or
unsigned kind, `Set(path, v)` returns the result of the engine (on any engine),
which is true on the keeping engine, and a following `GetInt(path)` returns `v`
converted to `int64`: `v` itself when `v < 2^63` (every signed value, and every
unsigned value below `2^63`), and `v - 2^64` for an unsigned `v` from `2^63` on. -/
theorem Set_GetInt_roundtrip (E : Engine σ) (w0 : World σ) (s : varStore) (path : GoString)
    (v : GoValue) (w : World Store) (hint : v.isInteger = true) (hwf : v.WellFormed) :
    (s.Set E path v w0).1
        = some (E.setInt w0.eng (cString path w0.heap).2 s.ptr (cString path w0.heap).1
            (toInt64 v.numeric)).1
      ∧ (s.Set keepEngine path v w).1 = some true
      ∧ ((s.Set keepEngine path v w).2.1.GetInt keepEngine path
          (s.Set keepEngine path v w).2.2).1
        = (if v.numeric < 2 ^ 63 then v.numeric else v.numeric - 2 ^ 64)
      ∧ (v.numeric < 2 ^ 63 →
          ((s.Set keepEngine path v w).2.1.GetInt keepEngine path
            (s.Set keepEngine path v w).2.2).1 = v.numeric) := by
  have hget : ((s.Set keepEngine path v w).2.1.GetInt keepEngine path
      (s.Set keepEngine path v w).2.2).1
        = (if v.numeric < 2 ^ 63 then v.numeric else v.numeric - 2 ^ 64) := by
    rw [Set_integer keepEngine s path v w hint hwf]
    rw [← toInt64_numeric v hint hwf]
    exact (SetInt_keep s path (toInt64 v.numeric) w).2
  refine ⟨?_, ?_, hget, ?_⟩
  · rw [Set_integer E s path v w0 hint hwf]
    rfl
  · rw [Set_integer keepEngine s path v w hint hwf]
    simp [(SetInt_keep s path (toInt64 v.numeric) w).1]
  · intro hlt
    rw [hget, if_pos hlt]

/-- C2 as amended, at the values of the tests and at both ends of `uint64`. -/
theorem Set_GetInt_roundtrip_witness :
    (GoValue.uint UintKind.Uint32 7).isInteger = true
      ∧ (GoValue.uint UintKind.Uint32 7).WellFormed
      ∧ (((newVarStore 7).Set keepEngine keyPath (GoValue.uint UintKind.Uint32 7)
          (World.fresh ⟨[]⟩)).2.1.GetInt keepEngine keyPath
          ((newVarStore 7).Set keepEngine keyPath (GoValue.uint UintKind.Uint32 7)
            (World.fresh ⟨[]⟩)).2.2).1 = 7
      ∧ (((newVarStore 7).Set keepEngine keyPath (GoValue.int IntKind.Int8 (-128))
          (World.fresh ⟨[]⟩)).2.1.GetInt keepEngine keyPath
          ((newVarStore 7).Set keepEngine keyPath (GoValue.int IntKind.Int8 (-128))
            (World.fresh ⟨[]⟩)).2.2).1 = -128
      ∧ (((newVarStore 7).Set keepEngine keyPath (GoValue.uint UintKind.Uint64 (2 ^ 64 - 1))
          (World.fresh ⟨[]⟩)).2.1.GetInt keepEngine keyPath
          ((newVarStore 7).Set keepEngine keyPath (GoValue.uint UintKind.Uint64 (2 ^ 64 - 1))
            (World.fresh ⟨[]⟩)).2.2).1 = -1 := by
  have h1 := Set_GetInt_roundtrip keepEngine (World.fresh ⟨[]⟩) (newVarStore 7) keyPath
    (GoValue.uint UintKind.Uint32 7) (World.fresh ⟨[]⟩) rfl (by decide)
  have h2 := Set_GetInt_roundtrip keepEngine (World.fresh ⟨[]⟩) (newVarStore 7) keyPath
    (GoValue.int IntKind.Int8 (-128)) (World.fresh ⟨[]⟩) rfl (by decide)
  have h3 := Set_GetInt_roundtrip keepEngine (World.fresh ⟨[]⟩) (newVarStore 7) keyPath
    (GoValue.uint UintKind.Uint64 (2 ^ 64 - 1)) (World.fresh ⟨[]⟩) rfl (by decide)
  refine ⟨rfl, by decide, ?_, ?_, ?_⟩
  · rw [h1.2.2.1]; decide
  · rw [h2.2.2.1]; decide
  · rw [h3.2.2.1]; decide

/-- C3: `SetString(path, s)` hands the engine (any engine) the address of a
buffer that holds the bytes of `s` and the length `len(s)`, the terminator not
counted; on the keeping engine the call returns true and a following
`GetString(path, &size)` returns `s` and leaves `len(s)` in `size`. This holds
for the empty string and for strings with zero bytes as for all others. -/
theorem SetString_GetString_roundtrip (E : Engine σ) (w0 : World σ) (s : varStore)
    (path str : GoString) (size0 : Int) (w : World Store) :
    (s.SetString E path str w0).2.2.calls
        = w0.calls ++ [Call.setString s.ptr w0.heap.next (w0.heap.next + 1) (str.length : Int)]
      ∧ (s.SetString E path str w0).2.2.heap.read (w0.heap.next + 1) (str.length : Int) = some str
      ∧ (s.SetString keepEngine path str w).1 = true
      ∧ ((s.SetString keepEngine path str w).2.1.GetString keepEngine path size0
          (s.SetString keepEngine path str w).2.2).1 = some str
      ∧ ((s.SetString keepEngine path str w).2.1.GetString keepEngine path size0
          (s.SetString keepEngine path str w).2.2).2.1 = (str.length : Int) := by
  refine ⟨?_, ?_, ?_, ?_, ?_⟩
  · simp [varStore.SetString, spSetString, cString]
  · simp [varStore.SetString, spSetString, cString, CHeap.read, CHeap.block, lookup_first,
      readBytes_append]
  · rw [SetString_keep]
  · rw [SetString_keep]
    exact (GetString_keep_put _ path str size0 _ w.eng _).1
  · rw [SetString_keep]
    exact (GetString_keep_put _ path str size0 _ w.eng _).2

/-- C3 at the empty string and at a string with a zero byte in it. -/
theorem SetString_GetString_roundtrip_witness :
    (((newVarStore 7).SetString keepEngine keyPath [] (World.fresh ⟨[]⟩)).2.1.GetString
        keepEngine keyPath 0
        ((newVarStore 7).SetString keepEngine keyPath [] (World.fresh ⟨[]⟩)).2.2).1 = some []
      ∧ (((newVarStore 7).SetString keepEngine keyPath [97, 0, 98] (World.fresh ⟨[]⟩)).2.1.GetString
        keepEngine keyPath 0
        ((newVarStore 7).SetString keepEngine keyPath [97, 0, 98] (World.fresh ⟨[]⟩)).2.2).1
          = some [97, 0, 98]
      ∧ (((newVarStore 7).SetString keepEngine keyPath [97, 0, 98] (World.fresh ⟨[]⟩)).2.1.GetString
        keepEngine keyPath 0
        ((newVarStore 7).SetString keepEngine keyPath [97, 0, 98] (World.fresh ⟨[]⟩)).2.2).2.1
          = 3 := by
  have h1 := SetString_GetString_roundtrip keepEngine (World.fresh ⟨[]⟩) (newVarStore 7) keyPath
    [] 0 (World.fresh ⟨[]⟩)
  have h2 := SetString_GetString_roundtrip keepEngine (World.fresh ⟨[]⟩) (newVarStore 7) keyPath
    [97, 0, 98] 0 (World.fresh ⟨[]⟩)
  exact ⟨h1.2.2.2.1, h2.2.2.2.1, h2.2.2.2.2⟩

/-! ## C9: no leak and no double free -/

theorem Tracked_alloc (R0 : List Ptr) (n0 k a : Nat) (sw sw1 : varStore × World σ)
    (h : Tracked R0 n0 k sw)
    (hp : sw1.1.pointers = sw.1.pointers ++ List.range' sw.2.heap.next a)
    (hn : sw1.2.heap.next = sw.2.heap.next + a)
    (hr : sw1.2.heap.released = sw.2.heap.released) :
    Tracked R0 n0 (k + a) sw1 := by
  obtain ⟨hnext, log, hlog, hrange⟩ := h
  refine ⟨by rw [hn, hnext, Nat.add_assoc], log, by rw [hr, hlog], ?_⟩
  rw [hp, ← List.append_assoc, hrange, hnext, List.range'_append_1, Nat.add_comm a k]

theorem Tracked_step (E : Engine σ) (R0 : List Ptr) (n0 k : Nat) (op : Op)
    (sw : varStore × World σ) (h : Tracked R0 n0 k sw) :
    Tracked R0 n0 (k + op.allocs) (op.step E sw) := by
  cases op with
  | set path val =>
    have hs := Set_store E sw.1 path val sw.2
    exact Tracked_alloc R0 n0 k _ sw _ h hs.2.1 hs.2.2.1 hs.2.2.2
  | setString path val =>
    refine Tracked_alloc R0 n0 k _ sw _ h ?_ ?_ ?_ <;>
      simp [Op.step, Op.allocs, varStore.SetString, spSetString, cString, List.range'_succ]
  | setInt path val =>
    refine Tracked_alloc R0 n0 k _ sw _ h ?_ ?_ ?_ <;>
      simp [Op.step, Op.allocs, varStore.SetInt, spSetInt, cString]
  | get path size =>
    refine Tracked_alloc R0 n0 k _ sw _ h ?_ ?_ ?_ <;>
      simp [Op.step, Op.allocs, varStore.Get, spGetString]
  | getString path size =>
    refine Tracked_alloc R0 n0 k _ sw _ h ?_ ?_ ?_ <;>
      simp [Op.step, Op.allocs, varStore.GetString, spGetString]
  | getObject path =>
    refine Tracked_alloc R0 n0 k _ sw _ h ?_ ?_ ?_ <;>
      simp [Op.step, Op.allocs, varStore.GetObject, spGetObject]
  | getInt path =>
    refine Tracked_alloc R0 n0 k _ sw _ h ?_ ?_ ?_ <;>
      simp [Op.step, Op.allocs, varStore.GetInt, spGetInt]
  | free =>
    obtain ⟨hnext, log, hlog, hrange⟩ := h
    refine ⟨?_, log ++ sw.1.pointers, ?_, ?_⟩
    · simp [Op.step, Op.allocs, varStore.Free, foldl_free_next, hnext]
    · simp [Op.step, varStore.Free, foldl_free_released, hlog]
    · simp [Op.step, Op.allocs, varStore.Free, hrange]

theorem Tracked_run (E : Engine σ) (R0 : List Ptr) (n0 : Nat) (ops : List Op) (k : Nat)
    (sw : varStore × World σ) (h : Tracked R0 n0 k sw) :
    Tracked R0 n0 (k + allocCount ops) (run E ops sw) := by
  induction ops generalizing k sw with
  | nil => simpa [run, allocCount] using h
  | cons op ops ih =>
    have h1 := ih (k + op.allocs) (op.step E sw) (Tracked_step E R0 n0 k op sw h)
    simpa [run, allocCount, Nat.add_assoc] using h1

theorem Tracked_start (ptr : Ptr) (w : World σ) :
    Tracked w.heap.released w.heap.next 0 (newVarStore ptr, w) :=
  ⟨rfl, [], by simp, by simp [newVarStore]⟩

/-- C9: for every sequence of `Set`, `SetString`, `SetInt`, `Get`, `GetString`,
`GetInt`, `GetObject` and `Free` calls on a store made by `newVarStore`, on any
engine: the buffers allocated by the sequence are the addresses from the first
fresh one on, two for a string and one for any other set; the releases made so
far are a list without repetition that, followed by the tracked list, is the
list of those buffers; after a final `Free` the releases made are exactly those
buffers, each once, and the tracked list is empty, so that a second `Free`
releases nothing; and a getter leaves the store and the heap as they were. -/
theorem run_no_leak_no_double_free (E : Engine σ) (ptr : Ptr) (w : World σ) (ops : List Op) :
    (run E ops (newVarStore ptr, w)).2.heap.next = w.heap.next + allocCount ops
      ∧ (∃ log, (run E ops (newVarStore ptr, w)).2.heap.released = w.heap.released ++ log
          ∧ log.Nodup
          ∧ log ++ (run E ops (newVarStore ptr, w)).1.pointers
              = List.range' w.heap.next (allocCount ops))
      ∧ (runFree E ops (newVarStore ptr, w)).2.heap.released
          = w.heap.released ++ List.range' w.heap.next (allocCount ops)
      ∧ (List.range' w.heap.next (allocCount ops)).Nodup
      ∧ (runFree E ops (newVarStore ptr, w)).1.pointers = []
      ∧ ((runFree E ops (newVarStore ptr, w)).1.Free
            (runFree E ops (newVarStore ptr, w)).2).2.heap.released
          = (runFree E ops (newVarStore ptr, w)).2.heap.released
      ∧ (∀ (op : Op) (sw : varStore × World σ), op.isGetter = true →
          (op.step E sw).1 = sw.1 ∧ (op.step E sw).2.heap = sw.2.heap) := by
  have hT := Tracked_run E w.heap.released w.heap.next ops 0 (newVarStore ptr, w)
    (Tracked_start ptr w)
  rw [Nat.zero_add] at hT
  obtain ⟨hnext, log, hlog, hrange⟩ := hT
  have hnd : (List.range' w.heap.next (allocCount ops)).Nodup := List.nodup_range' _ _
  refine ⟨hnext, ⟨log, hlog, ?_, hrange⟩, ?_, hnd, ?_, ?_, ?_⟩
  · rw [← hrange] at hnd
    exact (List.nodup_append.1 hnd).1
  · simp [runFree, varStore.Free, foldl_free_released, hlog, hrange]
  · simp [runFree, varStore.Free]
  · simp [runFree, varStore.Free, foldl_free_released]
  · intro op sw hg
    cases op <;> simp [Op.isGetter] at hg <;>
      simp [Op.step, varStore.Get, varStore.GetString, varStore.GetObject, varStore.GetInt,
        spGetString, spGetObject, spGetInt]

/-- C9 on a sequence with a rejected set, a `Set` that panics, a getter and a
`Free` in the middle: the four buffers are released once each, in order. -/
theorem run_no_leak_no_double_free_witness :
    (runFree (fixedEngine false 0 true)
        [Op.setString keyPath v1Bytes, Op.set keyPath (GoValue.bool true), Op.getInt keyPath,
          Op.free, Op.setInt keyPath 5]
        (newVarStore 7, World.fresh ())).2.heap.released = [1, 2, 3, 4]
      ∧ (runFree (fixedEngine false 0 true)
        [Op.setString keyPath v1Bytes, Op.set keyPath (GoValue.bool true), Op.getInt keyPath,
          Op.free, Op.setInt keyPath 5]
        (newVarStore 7, World.fresh ())).1.pointers = [] := by
  have h := run_no_leak_no_double_free (fixedEngine false 0 true) 7 (World.fresh ())
    [Op.setString keyPath v1Bytes, Op.set keyPath (GoValue.bool true), Op.getInt keyPath,
      Op.free, Op.setInt keyPath 5]
  exact ⟨h.2.2.1, h.2.2.2.2.1⟩

end Sophia
